import Mathlib

/-!
# Template converter (`plugin/converter/template.go`)

A shallow embedding of the template converter of the Drone CI server and a
verification of its documented behaviour.

Go strings are embedded as Lean strings (sequences of Unicode code points).
Every literal the converter compares against is ASCII, so the byte-level
comparisons of the Go code and the character-level comparisons made here
agree on well-formed UTF-8 text.

The collaborators that live outside the file (the YAML decoder, the template
store, `text/template`, the Starlark and the Jsonnet engines) are parameters
of the embedding; a Go result pair `(value, error)` is kept as a pair whose
second component is `none` for a nil error.
-/

set_option autoImplicit false

namespace Converter

/-! ## Data model -/

/-- Go `error` values as the converter can tell them apart: the sentinel of
`database/sql`, the two sentinels declared in `template.go` (compared by
identity in Go), and every other error, carried with its message. -/
inductive GoError where
  | sqlErrNoRows
  | templateNotFound
  | templateSyntaxErrors
  | other (msg : String)
deriving DecidableEq, Repr

/-- Sentinel `ErrTemplateNotFound` of `template.go`, line 40. -/
def ErrTemplateNotFound : GoError := GoError.templateNotFound

/-- Sentinel `ErrTemplateSyntaxErrors` of `template.go`, line 41. -/
def ErrTemplateSyntaxErrors : GoError := GoError.templateSyntaxErrors

/-- Modelled from the spec: `core.Repository` is declared outside the file; the
converter reads its namespace and its declared config filename only. -/
structure Repository where
  Namespace : String
  Config : String
deriving DecidableEq, Repr

/-- Modelled from the spec: `core.Config` is declared outside the file; it
carries the text of a configuration document. -/
structure Config where
  Data : String
deriving DecidableEq, Repr

/-- Modelled from the spec: `core.ConvertArgs` is declared outside the file; the
converter reads the repository descriptor and the raw config document, both
held by pointers that the caller has set. -/
structure ConvertArgs where
  Repo : Repository
  Config : Config
deriving DecidableEq, Repr

/-- Modelled from the spec: `core.Template` is declared outside the file; a
stored template has a name and a source text. -/
structure Template where
  Name : String
  Data : String
deriving DecidableEq, Repr

/-- Modelled from the spec: `core.TemplateArgs` is declared outside the file;
`Load` names the template and `Data` is the substitution mapping, whose
representation `D` is left open. -/
structure TemplateArgs (D : Type) where
  Load : String
  Data : D

/-- Go result pair `(*core.Config, error)`; `none` stands for `nil`. -/
abbrev Result := Option Config × Option GoError

/-- The collaborators of the converter. `Ctx` is `context.Context`, `D` the
substitution mapping and `T` a compiled `text/template`.

* `yamlUnmarshal text` is `yaml.Unmarshal([]byte(text), &templateArgs)` on a
  zero `templateArgs`: the (possibly partially) filled value and the error.
* `FindName ctx name namespace` is `templateStore.FindName`; the template
  component is only meaningful when the error is `none`, and a store that
  answers without an error answers with a template (a pointer that is set).
* `templateParse name text` is `template.New(name).Parse(text)`.
* `templateExecute tmpl data` is `tmpl.Execute(&out, data)`: the text written
  to `out` and the error.
* `starlarkParse` and `jsonnetParse` are `starlark.Parse` and `jsonnet.Parse`. -/
structure Collaborators (Ctx D T : Type) where
  yamlUnmarshal : String → TemplateArgs D × Option GoError
  FindName : Ctx → String → String → Template × Option GoError
  templateParse : String → String → T × Option GoError
  templateExecute : T → D → String × Option GoError
  starlarkParse : ConvertArgs → Template → D → String × Option GoError
  jsonnetParse : ConvertArgs → Template → D → String × Option GoError

/-- The three rendering functions of `template.go`. -/
inductive Renderer where
  | yaml
  | starlark
  | jsonnet
deriving DecidableEq, Repr

/-- Calls that `Convert` makes, recorded in program order. -/
inductive Call where
  | unmarshal (text : String)
  | findName (name : String) (ns : String)
  | render (r : Renderer) (t : Template)
deriving DecidableEq, Repr

/-- What one call of `Convert` does: the returned pair and the calls made. -/
structure Outcome where
  result : Result
  calls : List Call
deriving DecidableEq

/-! ## Library functions used by the converter -/

/-- Go `strings.HasSuffix`: `len(s) >= len(suffix) && s[len(s)-len(suffix):] == suffix`. -/
def HasSuffix (s suffix : String) : Bool :=
  decide (suffix.data.length ≤ s.data.length) &&
    (s.data.drop (s.data.length - suffix.data.length) == suffix.data)

/-- Scan of `filepath.Ext` from the last character towards the first, over the
reversed path: stop with the empty extension at a separator, return the
suffix starting at the first dot met. -/
def extScan : List Char → List Char → List Char
  | [], _ => []
  | c :: rest, acc =>
    if c = '/' then []
    else if c = '.' then '.' :: acc
    else extScan rest (c :: acc)

/-- Go `filepath.Ext` (Unix path separator): the suffix beginning at the final
dot in the final element of the path, empty if there is no dot. -/
def filepathExt (path : String) : String :=
  String.mk (extScan path.data.reverse [])

/-- A regular expression for a literal text. -/
def reLit : List Char → RegularExpression Char
  | [] => RegularExpression.epsilon
  | c :: cs => RegularExpression.comp (RegularExpression.char c) (reLit cs)

/-- Go regexp `x+`: one or more repetitions. -/
def rePlus (r : RegularExpression Char) : RegularExpression Char :=
  RegularExpression.comp r (RegularExpression.star r)

/-- Go regexp class `\s`, which is `[\t\n\f\r ]`. -/
def reSpace : RegularExpression Char :=
  RegularExpression.plus (RegularExpression.char '\t')
    (RegularExpression.plus (RegularExpression.char '\n')
      (RegularExpression.plus (RegularExpression.char '\x0c')
        (RegularExpression.plus (RegularExpression.char '\r')
          (RegularExpression.char ' '))))

/-- The expression after the anchor of `TemplateFileRE`, line 39:
`kind:\s+template+\n`, where the last `+` binds to the final `e` only. -/
def TemplateFileRE : RegularExpression Char :=
  RegularExpression.comp (reLit "kind:".data)
    (RegularExpression.comp (rePlus reSpace)
      (RegularExpression.comp (reLit "templat".data)
        (RegularExpression.comp (rePlus (RegularExpression.char 'e'))
          (RegularExpression.char '\n'))))

/-- Whether some initial segment of the text is matched by `re`, by
derivatives: this is a search for a match of `^re`. -/
def matchAtStart (re : RegularExpression Char) : List Char → Bool
  | [] => re.matchEpsilon
  | c :: cs => re.matchEpsilon || matchAtStart (re.deriv c) cs

/-- Go `(*Regexp).MatchString` for an expression that starts with `^`: the text
contains a match, which has to begin at the start of the text. -/
def MatchString (re : RegularExpression Char) (s : String) : Bool :=
  matchAtStart re s.data

/-- UTF-8 encoding of one code point, as byte values. -/
def utf8EncodeChar (c : Char) : List Nat :=
  let n := c.toNat
  if n < 0x80 then [n]
  else if n < 0x800 then [0xC0 + n / 0x40, 0x80 + n % 0x40]
  else if n < 0x10000 then [0xE0 + n / 0x1000, 0x80 + n / 0x40 % 0x40, 0x80 + n % 0x40]
  else [0xF0 + n / 0x40000, 0x80 + n / 0x1000 % 0x40, 0x80 + n / 0x40 % 0x40, 0x80 + n % 0x40]

/-- The bytes of a Go string holding the given text. -/
def utf8Bytes (s : String) : List Nat :=
  s.data.flatMap utf8EncodeChar

/-- How `fmt` prints a `[]byte` with the default verb, without the brackets:
the decimal value of each byte, a blank before every byte but the first. -/
def sprintBytes : List Nat → List Char
  | [] => []
  | [b] => (Nat.repr b).data
  | b :: rest => (Nat.repr b).data ++ ' ' :: sprintBytes rest

/-- Go `fmt.Sprint(out)` for `var out bytes.Buffer` holding the written text and
never read from. The operand is a `bytes.Buffer` value, not a pointer, and
`String` is declared on `*bytes.Buffer`, so `fmt` does not find a `Stringer`
and prints the struct with the default verb, field by field:
`buf []byte` as the decimal byte values between brackets, then `off int`
and `lastRead readOp`, both zero. -/
def fmtSprintBuffer (written : String) : String :=
  String.mk ("\x7b[".data ++ sprintBytes (utf8Bytes written) ++ "] 0 0\x7d".data)

/-! ## The converter -/

section
variable {Ctx D T : Type}

/-- Function `parseYaml`, lines 92-105. -/
def parseYaml (p : Collaborators Ctx D T) (t : Template) (templateArgs : TemplateArgs D) :
    Result :=
  let parsed := p.templateParse t.Name t.Data
  if parsed.2 ≠ none then (none, parsed.2)
  else
    let executed := p.templateExecute parsed.1 templateArgs.Data
    if executed.2 ≠ none then (none, executed.2)
    else (some { Data := fmtSprintBuffer executed.1 }, none)

/-- Function `parseJsonnet`, lines 107-115. -/
def parseJsonnet (p : Collaborators Ctx D T) (req : ConvertArgs) (template : Template)
    (templateArgs : TemplateArgs D) : Result :=
  let parsed := p.jsonnetParse req template templateArgs.Data
  if parsed.2 ≠ none then (none, parsed.2)
  else (some { Data := parsed.1 }, none)

/-- Function `parseStarlark`, lines 117-125. -/
def parseStarlark (p : Collaborators Ctx D T) (req : ConvertArgs) (template : Template)
    (templateArgs : TemplateArgs D) : Result :=
  let parsed := p.starlarkParse req template templateArgs.Data
  if parsed.2 ≠ none then (none, parsed.2)
  else (some { Data := parsed.1 }, none)

/-- Method `(*templatePlugin).Convert`, lines 54-90, with the calls it makes
recorded next to the returned pair. -/
def Convert (p : Collaborators Ctx D T) (ctx : Ctx) (req : ConvertArgs) : Outcome :=
  -- check type is yaml
  if HasSuffix req.Repo.Config ".yml" = false then ⟨(none, none), []⟩
  -- check kind is template
  else if MatchString TemplateFileRE req.Config.Data = false then ⟨(none, none), []⟩
  else
    -- map to templateArgs
    let decoded := p.yamlUnmarshal req.Config.Data
    let templateArgs := decoded.1
    let log₁ := [Call.unmarshal req.Config.Data]
    if decoded.2 ≠ none then ⟨(none, some ErrTemplateSyntaxErrors), log₁⟩
    else
      -- get template from db
      let found := p.FindName ctx templateArgs.Load req.Repo.Namespace
      let template := found.1
      let err := found.2
      let log₂ := log₁ ++ [Call.findName templateArgs.Load req.Repo.Namespace]
      if err = some GoError.sqlErrNoRows then ⟨(none, some ErrTemplateNotFound), log₂⟩
      else if err ≠ none then ⟨(none, err), log₂⟩
      else
        let ext := filepathExt templateArgs.Load
        if ext = ".yml" ∨ ext = ".yaml" then
          ⟨parseYaml p template templateArgs, log₂ ++ [Call.render Renderer.yaml template]⟩
        else if ext = ".star" ∨ ext = ".starlark" ∨ ext = ".script" then
          ⟨parseStarlark p req template templateArgs,
            log₂ ++ [Call.render Renderer.starlark template]⟩
        else if ext = ".jsonnet" then
          ⟨parseJsonnet p req template templateArgs,
            log₂ ++ [Call.render Renderer.jsonnet template]⟩
        else ⟨(none, none), log₂⟩

end

/-! ## Specification predicates and sample collaborators -/

/-- The characters of the Go regexp class `\s`. -/
def goSpace : List Char := ['\t', '\n', '\x0c', '\r', ' ']

/-- The renderers that a call log shows as invoked. -/
def renderersInvoked : List Call → List Renderer
  | [] => []
  | Call.render r _ :: rest => r :: renderersInvoked rest
  | _ :: rest => renderersInvoked rest

/-- The store lookups that a call log shows, as (name, namespace) pairs. -/
def lookupsMade : List Call → List (String × String)
  | [] => []
  | Call.findName name ns :: rest => (name, ns) :: lookupsMade rest
  | _ :: rest => lookupsMade rest

/-- The three kinds of result: pass-through, an error without a `Config`, a
`Config` without an error. -/
def Result.oneKind (r : Result) : Prop :=
  (r.1 = none ∧ r.2 = none) ∨ (r.1 = none ∧ r.2 ≠ none) ∨ (r.1 ≠ none ∧ r.2 = none)

/-- The envelopes that detection is to let through, stated on the texts: the
filename ends with `.yml` and the content is `kind:`, a non-empty run of
blank, tab, line feed, form feed and carriage return characters, `templat`,
one or more `e`, a line feed, and then anything. To be compared with the two
checks at the head of `Convert`. -/
def AcceptedByGate (file content : String) : Prop :=
  ".yml".data <:+ file.data ∧
    ∃ w e rest, w ≠ [] ∧ (∀ ch ∈ w, ch ∈ [' ', '\t', '\n', '\x0c', '\r']) ∧ 0 < e ∧
      content.data =
        "kind:".data ++ w ++ "templat".data ++ List.replicate e 'e' ++ ['\n'] ++ rest

/-- The marker as the documentation words it: the content starts with `kind:`,
one or more whitespace characters, the word `template` and a line feed. -/
def StartsWithKindTemplate (content : String) : Prop :=
  ∃ w rest, w ≠ [] ∧ (∀ ch ∈ w, ch ∈ goSpace) ∧
    content.data = "kind:".data ++ w ++ "template\n".data ++ rest

/-- An in-memory template store: a table keyed by (name, namespace); a key
without a row is reported with `sql.ErrNoRows`. -/
def mapStore {Ctx : Type} (rows : List ((String × String) × Template)) (_ctx : Ctx)
    (name ns : String) : Template × Option GoError :=
  match rows.lookup (name, ns) with
  | some t => (t, none)
  | none => ({ Name := "", Data := "" }, some GoError.sqlErrNoRows)

/-- Substitution data of the samples: key and value pairs. -/
abbrev SampleData := List (String × String)

/-- The envelope of the greeting sample. -/
def greetEnvelope : String := "kind: template\nload: greet.yml\ndata:\n  name: World\n"

/-- The stored template of the greeting sample. -/
def greetTemplate : Template := { Name := "greet.yml", Data := "hello \x7b\x7b .name \x7d\x7d\n" }

/-- The decoded envelope of the greeting sample. -/
def greetArgs : TemplateArgs SampleData := { Load := "greet.yml", Data := [("name", "World")] }

/-- A stand-in for the YAML decoder on the sample envelopes: it knows the
envelopes below and reports any other text as malformed, leaving the
arguments at their zero value. -/
def sampleUnmarshal (text : String) : TemplateArgs SampleData × Option GoError :=
  if text = greetEnvelope then (greetArgs, none)
  else if text = "kind: template\nload: ci.jsonnet\n" then ({ Load := "ci.jsonnet", Data := [] }, none)
  else if text = "kind: templatee\nload: ci.jsonnet\n" then ({ Load := "ci.jsonnet", Data := [] }, none)
  else if text = "kind: template\nload: ci.yml\n" then ({ Load := "ci.yml", Data := [] }, none)
  else if text = "kind: template\nload: notes.txt\n" then ({ Load := "notes.txt", Data := [] }, none)
  else ({ Load := "", Data := [] }, some (GoError.other "yaml: did not find expected node content"))

/-- The rows of the sample store. In the namespace `octocat` the rows of
`ci.yml` and `ci.jsonnet` hold a template that declares the name
`pipeline.yml`; in the namespace `acme` the row of `ci.yml` holds a template
that declares the name `ci.star`. -/
def sampleRows : List ((String × String) × Template) :=
  [(("greet.yml", "octocat"), greetTemplate),
   (("notes.txt", "octocat"), { Name := "notes.txt", Data := "remember the milk\n" }),
   (("ci.yml", "octocat"), { Name := "pipeline.yml", Data := "kind: pipeline\n" }),
   (("ci.jsonnet", "octocat"), { Name := "pipeline.yml", Data := "kind: pipeline\n" }),
   (("ci.yml", "acme"), { Name := "ci.star", Data := "kind: pipeline\n" })]

/-- A stand-in for `text/template` execution: the greeting template with the
name `World` substituted, any other template text unchanged. -/
def sampleExecute (tmpl : String) (data : SampleData) : String × Option GoError :=
  if tmpl = "hello \x7b\x7b .name \x7d\x7d\n" ∧ data = [("name", "World")] then ("hello World\n", none)
  else (tmpl, none)

/-- Sample collaborators: the stand-in decoder, the in-memory store, and
engines that hand back the template text. -/
def sample : Collaborators Unit SampleData String where
  yamlUnmarshal := sampleUnmarshal
  FindName := mapStore sampleRows
  templateParse := fun _name text => (text, none)
  templateExecute := sampleExecute
  starlarkParse := fun _req t _data => (t.Data, none)
  jsonnetParse := fun _req t _data => (t.Data, none)

/-- A request for a repository of the given namespace with the given config
filename and content. -/
def request (ns file content : String) : ConvertArgs :=
  { Repo := { Namespace := ns, Config := file }, Config := { Data := content } }

/-! ## Library lemmas -/

theorem HasSuffix_iff (s suffix : String) :
    HasSuffix s suffix = true ↔ suffix.data <:+ s.data := by
  unfold HasSuffix
  simp only [Bool.and_eq_true, decide_eq_true_eq, beq_iff_eq]
  constructor
  · rintro ⟨_, h⟩
    have hsplit := List.take_append_drop (s.data.length - suffix.data.length) s.data
    rw [h] at hsplit
    exact ⟨_, hsplit⟩
  · rintro ⟨t, h⟩
    have hlen : s.data.length = t.length + suffix.data.length := by rw [← h, List.length_append]
    refine ⟨by omega, ?_⟩
    have hk : s.data.length - suffix.data.length = t.length := by omega
    rw [hk, ← h, List.drop_left]

theorem matchAtStart_iff (re : RegularExpression Char) (s : List Char) :
    matchAtStart re s = true ↔ ∃ p r, s = p ++ r ∧ p ∈ re.matches' := by
  induction s generalizing re with
  | nil =>
    simp only [matchAtStart]
    constructor
    · intro h
      exact ⟨[], [], rfl, (RegularExpression.rmatch_iff_matches' re []).1 h⟩
    · rintro ⟨p, r, h, hp⟩
      have hp0 : p = [] := by
        cases p with
        | nil => rfl
        | cons a as => simp at h
      subst hp0
      exact (RegularExpression.rmatch_iff_matches' re []).2 hp
  | cons c cs ih =>
    simp only [matchAtStart, Bool.or_eq_true, ih]
    constructor
    · rintro (h | ⟨p, r, h, hp⟩)
      · exact ⟨[], c :: cs, rfl, (RegularExpression.rmatch_iff_matches' re []).1 h⟩
      · refine ⟨c :: p, r, by rw [h]; rfl, ?_⟩
        rw [← RegularExpression.rmatch_iff_matches'] at hp ⊢
        exact hp
    · rintro ⟨p, r, h, hp⟩
      cases p with
      | nil => exact Or.inl ((RegularExpression.rmatch_iff_matches' re []).2 hp)
      | cons a as =>
        simp only [List.cons_append, List.cons.injEq] at h
        obtain ⟨rfl, rfl⟩ := h
        refine Or.inr ⟨as, r, rfl, ?_⟩
        rw [← RegularExpression.rmatch_iff_matches'] at hp ⊢
        exact hp

theorem matches_comp (P Q : RegularExpression Char) (x : List Char) :
    x ∈ (RegularExpression.comp P Q).matches' ↔
      ∃ a, a ∈ P.matches' ∧ ∃ b, b ∈ Q.matches' ∧ a ++ b = x :=
  Language.mem_mul

theorem matches_plus (P Q : RegularExpression Char) (x : List Char) :
    x ∈ (RegularExpression.plus P Q).matches' ↔ x ∈ P.matches' ∨ x ∈ Q.matches' :=
  Iff.rfl

theorem matches_char (c : Char) (p : List Char) :
    p ∈ (RegularExpression.char c).matches' ↔ p = [c] :=
  Iff.rfl

theorem matches_epsilon (p : List Char) :
    p ∈ (RegularExpression.epsilon : RegularExpression Char).matches' ↔ p = [] :=
  Iff.rfl

theorem matches_star (P : RegularExpression Char) (x : List Char) :
    x ∈ (RegularExpression.star P).matches' ↔
      ∃ L : List (List Char), x = L.flatten ∧ ∀ y ∈ L, y ∈ P.matches' :=
  Iff.rfl

theorem matches_reLit (cs p : List Char) : p ∈ (reLit cs).matches' ↔ p = cs := by
  induction cs generalizing p with
  | nil => exact matches_epsilon p
  | cons c cs ih =>
    rw [reLit, matches_comp]
    constructor
    · rintro ⟨a, ha, b, hb, rfl⟩
      rw [ih] at hb
      rw [matches_char] at ha
      subst ha; subst hb; rfl
    · rintro rfl
      exact ⟨[c], rfl, cs, (ih cs).2 rfl, rfl⟩

theorem matches_reSpace (p : List Char) :
    p ∈ reSpace.matches' ↔ ∃ ch, ch ∈ goSpace ∧ p = [ch] := by
  simp only [reSpace, matches_plus, matches_char, goSpace, List.mem_cons, List.mem_singleton,
    List.not_mem_nil, or_false]
  constructor
  · rintro (h | h | h | h | h) <;> exact ⟨_, by simp, h⟩
  · rintro ⟨ch, (h | h | h | h | h), rfl⟩ <;> subst h <;> simp

theorem matches_char_class (c : Char) (p : List Char) :
    p ∈ (RegularExpression.char c).matches' ↔ ∃ ch, ch ∈ [c] ∧ p = [ch] := by
  rw [matches_char]
  simp

/-- The language of `x+` when `x` matches exactly the one-character texts
over a set of characters: the non-empty texts over that set. -/
theorem matches_rePlus_class (r : RegularExpression Char) (S : List Char)
    (hr : ∀ p, p ∈ r.matches' ↔ ∃ ch, ch ∈ S ∧ p = [ch]) (x : List Char) :
    x ∈ (rePlus r).matches' ↔ x ≠ [] ∧ ∀ ch ∈ x, ch ∈ S := by
  have hstar : ∀ y : List Char, y ∈ (RegularExpression.star r).matches' ↔
      ∀ ch ∈ y, ch ∈ S := by
    intro y
    rw [matches_star]
    constructor
    · rintro ⟨L, rfl, hL⟩ ch hch
      rw [List.mem_flatten] at hch
      obtain ⟨l, hl, hch⟩ := hch
      obtain ⟨d, hd, rfl⟩ := (hr l).1 (hL l hl)
      rw [List.mem_singleton] at hch
      exact hch ▸ hd
    · intro h
      refine ⟨y.map (fun ch => [ch]), ?_, ?_⟩
      · clear h
        induction y with
        | nil => rfl
        | cons a as ih => simp [← ih]
      · intro l hl
        rw [List.mem_map] at hl
        obtain ⟨ch, hch, rfl⟩ := hl
        exact (hr _).2 ⟨ch, h ch hch, rfl⟩
  rw [rePlus, matches_comp]
  constructor
  · rintro ⟨a, ha, b, hb, rfl⟩
    obtain ⟨d, hd, rfl⟩ := (hr a).1 ha
    refine ⟨by simp, ?_⟩
    intro ch hch
    rw [List.mem_append, List.mem_singleton] at hch
    rcases hch with rfl | hch
    · exact hd
    · exact (hstar b).1 hb ch hch
  · rintro ⟨hne, hall⟩
    cases x with
    | nil => exact absurd rfl hne
    | cons a as =>
      exact ⟨[a], (hr _).2 ⟨a, hall a (List.mem_cons_self _ _), rfl⟩, as,
        (hstar as).2 (fun ch hch => hall ch (List.mem_cons_of_mem _ hch)), rfl⟩

/-- The language of the expression of `TemplateFileRE`. -/
theorem matches_TemplateFileRE (p : List Char) :
    p ∈ TemplateFileRE.matches' ↔
      ∃ w e, w ≠ [] ∧ (∀ ch ∈ w, ch ∈ goSpace) ∧ 0 < e ∧
        p = "kind:".data ++ w ++ "templat".data ++ List.replicate e 'e' ++ ['\n'] := by
  have hE : ∀ x : List Char, (x ≠ [] ∧ ∀ ch ∈ x, ch ∈ ['e']) ↔
      ∃ e, 0 < e ∧ x = List.replicate e 'e' := by
    intro x
    constructor
    · rintro ⟨hne, hall⟩
      refine ⟨x.length, List.length_pos.2 hne, ?_⟩
      exact List.eq_replicate_iff.2 ⟨rfl, fun b hb => List.mem_singleton.1 (hall b hb)⟩
    · rintro ⟨e, he, rfl⟩
      refine ⟨?_, ?_⟩
      · intro h
        have := congrArg List.length h
        simp at this
        omega
      · intro ch hch
        rw [List.mem_singleton]
        exact List.eq_of_mem_replicate hch
  rw [TemplateFileRE]
  constructor
  · intro h
    obtain ⟨a, ha, b, hb, rfl⟩ := (matches_comp _ _ _).1 h
    obtain ⟨w, hw, c, hc, rfl⟩ := (matches_comp _ _ _).1 hb
    obtain ⟨t, ht, d, hd, rfl⟩ := (matches_comp _ _ _).1 hc
    obtain ⟨es, hes, n, hn, rfl⟩ := (matches_comp _ _ _).1 hd
    rw [matches_reLit] at ha ht
    rw [matches_rePlus_class _ _ matches_reSpace] at hw
    rw [matches_rePlus_class _ _ (matches_char_class 'e'), hE] at hes
    obtain ⟨e, he, rfl⟩ := hes
    rw [matches_char] at hn
    subst ha ht hn
    exact ⟨w, e, hw.1, hw.2, he, by simp⟩
  · rintro ⟨w, e, hw, hws, he, rfl⟩
    refine (matches_comp _ _ _).2 ⟨"kind:".data, (matches_reLit _ _).2 rfl, _,
      (matches_comp _ _ _).2 ⟨w, ?_, _, (matches_comp _ _ _).2 ⟨"templat".data,
        (matches_reLit _ _).2 rfl, _, (matches_comp _ _ _).2 ⟨List.replicate e 'e', ?_,
          ['\n'], rfl, rfl⟩, rfl⟩, rfl⟩, ?_⟩
    · exact (matches_rePlus_class _ _ matches_reSpace w).2 ⟨hw, hws⟩
    · exact (matches_rePlus_class _ _ (matches_char_class 'e') _).2 ((hE _).2 ⟨e, he, rfl⟩)
    · simp

/-- The texts accepted by `MatchString TemplateFileRE`. -/
theorem MatchString_TemplateFileRE_iff (c : String) :
    MatchString TemplateFileRE c = true ↔
      ∃ w e rest, w ≠ [] ∧ (∀ ch ∈ w, ch ∈ goSpace) ∧ 0 < e ∧
        c.data = "kind:".data ++ w ++ "templat".data ++ List.replicate e 'e' ++ ['\n'] ++ rest := by
  unfold MatchString
  rw [matchAtStart_iff]
  constructor
  · rintro ⟨p, r, h, hp⟩
    obtain ⟨w, e, hw, hws, he, rfl⟩ := (matches_TemplateFileRE p).1 hp
    exact ⟨w, e, r, hw, hws, he, h⟩
  · rintro ⟨w, e, rest, hw, hws, he, h⟩
    exact ⟨_, rest, h, (matches_TemplateFileRE _).2 ⟨w, e, hw, hws, he, rfl⟩⟩


/-! ## Results returned by the renderers -/

section
variable {Ctx D T : Type}

theorem parseYaml_oneKind (p : Collaborators Ctx D T) (t : Template) (a : TemplateArgs D) :
    (parseYaml p t a).oneKind := by
  unfold parseYaml Result.oneKind
  dsimp only
  split_ifs with h₁ h₂
  · exact Or.inr (Or.inl ⟨rfl, h₁⟩)
  · exact Or.inr (Or.inl ⟨rfl, h₂⟩)
  · exact Or.inr (Or.inr ⟨by simp, rfl⟩)

theorem parseJsonnet_oneKind (p : Collaborators Ctx D T) (req : ConvertArgs) (t : Template)
    (a : TemplateArgs D) : (parseJsonnet p req t a).oneKind := by
  unfold parseJsonnet Result.oneKind
  dsimp only
  split_ifs with h₁
  · exact Or.inr (Or.inl ⟨rfl, h₁⟩)
  · exact Or.inr (Or.inr ⟨by simp, rfl⟩)

theorem parseStarlark_oneKind (p : Collaborators Ctx D T) (req : ConvertArgs) (t : Template)
    (a : TemplateArgs D) : (parseStarlark p req t a).oneKind := by
  unfold parseStarlark Result.oneKind
  dsimp only
  split_ifs with h₁
  · exact Or.inr (Or.inl ⟨rfl, h₁⟩)
  · exact Or.inr (Or.inr ⟨by simp, rfl⟩)

theorem oneKind_not_both (r : Result) (h : r.oneKind) : ¬ (r.1 ≠ none ∧ r.2 ≠ none) := by
  rintro ⟨h₁, h₂⟩
  rcases h with ⟨h, _⟩ | ⟨h, _⟩ | ⟨_, h⟩
  · exact h₁ h
  · exact h₁ h
  · exact h₂ h

/-- What `Convert` does once both detection checks have passed. -/
theorem Convert_of_detected (p : Collaborators Ctx D T) (ctx : Ctx) (req : ConvertArgs)
    (hname : HasSuffix req.Repo.Config ".yml" = true)
    (hkind : MatchString TemplateFileRE req.Config.Data = true) :
    Convert p ctx req =
      if (p.yamlUnmarshal req.Config.Data).2 ≠ none then
        ⟨(none, some ErrTemplateSyntaxErrors), [Call.unmarshal req.Config.Data]⟩
      else if (p.FindName ctx (p.yamlUnmarshal req.Config.Data).1.Load req.Repo.Namespace).2
          = some GoError.sqlErrNoRows then
        ⟨(none, some ErrTemplateNotFound), [Call.unmarshal req.Config.Data,
          Call.findName (p.yamlUnmarshal req.Config.Data).1.Load req.Repo.Namespace]⟩
      else if (p.FindName ctx (p.yamlUnmarshal req.Config.Data).1.Load req.Repo.Namespace).2
          ≠ none then
        ⟨(none, (p.FindName ctx (p.yamlUnmarshal req.Config.Data).1.Load req.Repo.Namespace).2),
          [Call.unmarshal req.Config.Data,
            Call.findName (p.yamlUnmarshal req.Config.Data).1.Load req.Repo.Namespace]⟩
      else if filepathExt (p.yamlUnmarshal req.Config.Data).1.Load = ".yml" ∨
          filepathExt (p.yamlUnmarshal req.Config.Data).1.Load = ".yaml" then
        ⟨parseYaml p
            (p.FindName ctx (p.yamlUnmarshal req.Config.Data).1.Load req.Repo.Namespace).1
            (p.yamlUnmarshal req.Config.Data).1,
          [Call.unmarshal req.Config.Data,
            Call.findName (p.yamlUnmarshal req.Config.Data).1.Load req.Repo.Namespace,
            Call.render Renderer.yaml
              (p.FindName ctx (p.yamlUnmarshal req.Config.Data).1.Load req.Repo.Namespace).1]⟩
      else if filepathExt (p.yamlUnmarshal req.Config.Data).1.Load = ".star" ∨
          filepathExt (p.yamlUnmarshal req.Config.Data).1.Load = ".starlark" ∨
          filepathExt (p.yamlUnmarshal req.Config.Data).1.Load = ".script" then
        ⟨parseStarlark p req
            (p.FindName ctx (p.yamlUnmarshal req.Config.Data).1.Load req.Repo.Namespace).1
            (p.yamlUnmarshal req.Config.Data).1,
          [Call.unmarshal req.Config.Data,
            Call.findName (p.yamlUnmarshal req.Config.Data).1.Load req.Repo.Namespace,
            Call.render Renderer.starlark
              (p.FindName ctx (p.yamlUnmarshal req.Config.Data).1.Load req.Repo.Namespace).1]⟩
      else if filepathExt (p.yamlUnmarshal req.Config.Data).1.Load = ".jsonnet" then
        ⟨parseJsonnet p req
            (p.FindName ctx (p.yamlUnmarshal req.Config.Data).1.Load req.Repo.Namespace).1
            (p.yamlUnmarshal req.Config.Data).1,
          [Call.unmarshal req.Config.Data,
            Call.findName (p.yamlUnmarshal req.Config.Data).1.Load req.Repo.Namespace,
            Call.render Renderer.jsonnet
              (p.FindName ctx (p.yamlUnmarshal req.Config.Data).1.Load req.Repo.Namespace).1]⟩
      else
        ⟨(none, none), [Call.unmarshal req.Config.Data,
          Call.findName (p.yamlUnmarshal req.Config.Data).1.Load req.Repo.Namespace]⟩ := by
  unfold Convert
  simp only [hname, hkind, Bool.true_eq_false, if_false, List.cons_append, List.nil_append]

end


/-! ## Detection -/

section
variable {Ctx D T : Type}

/-- What `Convert` does when one of the two detection checks fails. -/
theorem Convert_of_not_detected (p : Collaborators Ctx D T) (ctx : Ctx) (req : ConvertArgs)
    (h : ¬ (HasSuffix req.Repo.Config ".yml" = true ∧
      MatchString TemplateFileRE req.Config.Data = true)) :
    Convert p ctx req = ⟨(none, none), []⟩ := by
  unfold Convert
  by_cases h₁ : HasSuffix req.Repo.Config ".yml" = true
  · have h₂ : MatchString TemplateFileRE req.Config.Data = false := by
      cases hm : MatchString TemplateFileRE req.Config.Data
      · rfl
      · exact absurd ⟨h₁, hm⟩ h
    simp only [h₁, h₂, Bool.true_eq_false, if_false, if_true]
  · have h₁' : HasSuffix req.Repo.Config ".yml" = false := by
      cases hm : HasSuffix req.Repo.Config ".yml"
      · rfl
      · exact absurd hm h₁
    simp only [h₁', if_true]

/-- The decoder is called exactly when both detection checks pass. -/
theorem unmarshal_mem_calls_iff (p : Collaborators Ctx D T) (ctx : Ctx) (req : ConvertArgs) :
    Call.unmarshal req.Config.Data ∈ (Convert p ctx req).calls ↔
      HasSuffix req.Repo.Config ".yml" = true ∧
        MatchString TemplateFileRE req.Config.Data = true := by
  constructor
  · intro h
    by_contra hn
    rw [Convert_of_not_detected p ctx req hn] at h
    simp at h
  · rintro ⟨h₁, h₂⟩
    rw [Convert_of_detected p ctx req h₁ h₂]
    split_ifs <;> simp

end

/-! ## Claims -/

section
variable {Ctx D T : Type}

/-- C1: when the repository config filename does not end with `.yml` (for
instance when it ends with `.yaml`), `Convert` returns `(nil, nil)` without
calling any collaborator, whatever the content and the template store. -/
theorem convert_other_filename_passthrough (p : Collaborators Ctx D T) (ctx : Ctx)
    (req : ConvertArgs) (h : ¬ ".yml".data <:+ req.Repo.Config.data) :
    Convert p ctx req = ⟨(none, none), []⟩ := by
  apply Convert_of_not_detected
  rintro ⟨h₁, _⟩
  exact h ((HasSuffix_iff _ _).1 h₁)

/-- C3: when detection passes and the decoder reports an error, `Convert`
returns `(nil, ErrTemplateSyntaxErrors)` having called the decoder only: the
decoder's error, the partially decoded arguments and the store play no part. -/
theorem decode_failure_is_syntax_error (p : Collaborators Ctx D T) (ctx : Ctx)
    (req : ConvertArgs) (e : GoError)
    (hname : HasSuffix req.Repo.Config ".yml" = true)
    (hkind : MatchString TemplateFileRE req.Config.Data = true)
    (hdec : (p.yamlUnmarshal req.Config.Data).2 = some e) :
    Convert p ctx req =
      ⟨(none, some ErrTemplateSyntaxErrors), [Call.unmarshal req.Config.Data]⟩ := by
  rw [Convert_of_detected p ctx req hname hkind, if_pos]
  rw [hdec]
  simp

/-- C4: when detection and decoding succeed and the store's `FindName` fails
with `e`, `Convert` returns a nil `Config` with `ErrTemplateNotFound` if `e`
is `sql.ErrNoRows` and with `e` itself otherwise, and no renderer is invoked. -/
theorem lookup_failure_classified (p : Collaborators Ctx D T) (ctx : Ctx)
    (req : ConvertArgs) (args : TemplateArgs D) (t : Template) (e : GoError)
    (hname : HasSuffix req.Repo.Config ".yml" = true)
    (hkind : MatchString TemplateFileRE req.Config.Data = true)
    (hdec : p.yamlUnmarshal req.Config.Data = (args, none))
    (hfind : p.FindName ctx args.Load req.Repo.Namespace = (t, some e)) :
    (e = GoError.sqlErrNoRows →
        (Convert p ctx req).result = (none, some ErrTemplateNotFound)) ∧
      (e ≠ GoError.sqlErrNoRows → (Convert p ctx req).result = (none, some e)) ∧
      (Convert p ctx req).calls =
        [Call.unmarshal req.Config.Data, Call.findName args.Load req.Repo.Namespace] ∧
      renderersInvoked (Convert p ctx req).calls = [] := by
  rw [Convert_of_detected p ctx req hname hkind]
  simp only [hdec, hfind, ne_eq, not_true_eq_false, if_false, Option.some.injEq,
    reduceCtorEq, not_false_eq_true, if_true]
  by_cases he : e = GoError.sqlErrNoRows
  · simp [he, renderersInvoked]
  · simp [he, renderersInvoked]

/-- C6: when detection, decoding and the lookup succeed, the outcome is
decided by the extension on which `Convert` dispatches, compared as written:
`.yml` and `.yaml` give the result of `parseYaml`; `.star`, `.starlark` and
`.script` give the Starlark engine's text as `Config.Data`, or its error;
`.jsonnet` gives the Jsonnet engine's text as `Config.Data`, or its error;
any other extension (the empty one, `.txt`, `.YML`, ...) gives `(nil, nil)`
with no renderer invoked. -/
theorem dispatch_total_on_extension (p : Collaborators Ctx D T) (ctx : Ctx)
    (req : ConvertArgs) (args : TemplateArgs D) (t : Template)
    (hname : HasSuffix req.Repo.Config ".yml" = true)
    (hkind : MatchString TemplateFileRE req.Config.Data = true)
    (hdec : p.yamlUnmarshal req.Config.Data = (args, none))
    (hfind : p.FindName ctx args.Load req.Repo.Namespace = (t, none)) :
    (filepathExt args.Load = ".yml" ∨ filepathExt args.Load = ".yaml" →
        (Convert p ctx req).result = parseYaml p t args ∧
        renderersInvoked (Convert p ctx req).calls = [Renderer.yaml]) ∧
      (filepathExt args.Load = ".star" ∨ filepathExt args.Load = ".starlark" ∨
          filepathExt args.Load = ".script" →
        (Convert p ctx req).result =
          (match p.starlarkParse req t args.Data with
            | (file, none) => (some { Data := file }, none)
            | (_, some err) => (none, some err)) ∧
        renderersInvoked (Convert p ctx req).calls = [Renderer.starlark]) ∧
      (filepathExt args.Load = ".jsonnet" →
        (Convert p ctx req).result =
          (match p.jsonnetParse req t args.Data with
            | (file, none) => (some { Data := file }, none)
            | (_, some err) => (none, some err)) ∧
        renderersInvoked (Convert p ctx req).calls = [Renderer.jsonnet]) ∧
      (filepathExt args.Load ∉ [".yml", ".yaml", ".star", ".starlark", ".script", ".jsonnet"] →
        (Convert p ctx req).result = (none, none) ∧
        renderersInvoked (Convert p ctx req).calls = []) ∧
      (filepathExt args.Load = "" ∨ filepathExt args.Load = ".txt" ∨
          filepathExt args.Load = ".YML" →
        (Convert p ctx req).result = (none, none) ∧
        renderersInvoked (Convert p ctx req).calls = []) := by
  rw [Convert_of_detected p ctx req hname hkind]
  simp only [hdec, hfind, ne_eq, not_true_eq_false, if_false, reduceCtorEq]
  have hother : filepathExt args.Load ∉
      [".yml", ".yaml", ".star", ".starlark", ".script", ".jsonnet"] →
      (if filepathExt args.Load = ".yml" ∨ filepathExt args.Load = ".yaml" then
          (⟨parseYaml p t args, [Call.unmarshal req.Config.Data,
            Call.findName args.Load req.Repo.Namespace, Call.render Renderer.yaml t]⟩ : Outcome)
        else if filepathExt args.Load = ".star" ∨ filepathExt args.Load = ".starlark" ∨
            filepathExt args.Load = ".script" then
          ⟨parseStarlark p req t args, [Call.unmarshal req.Config.Data,
            Call.findName args.Load req.Repo.Namespace, Call.render Renderer.starlark t]⟩
        else if filepathExt args.Load = ".jsonnet" then
          ⟨parseJsonnet p req t args, [Call.unmarshal req.Config.Data,
            Call.findName args.Load req.Repo.Namespace, Call.render Renderer.jsonnet t]⟩
        else ⟨(none, none), [Call.unmarshal req.Config.Data,
            Call.findName args.Load req.Repo.Namespace]⟩) =
        ⟨(none, none), [Call.unmarshal req.Config.Data,
            Call.findName args.Load req.Repo.Namespace]⟩ := by
    intro h
    simp only [List.mem_cons, List.mem_singleton, List.not_mem_nil, or_false, not_or] at h
    obtain ⟨h₁, h₂, h₃, h₄, h₅, h₆⟩ := h
    simp [h₁, h₂, h₃, h₄, h₅, h₆]
  refine ⟨?_, ?_, ?_, ?_, ?_⟩
  · intro h
    rw [if_pos h]
    exact ⟨rfl, rfl⟩
  · intro h
    have hy : ¬ (filepathExt args.Load = ".yml" ∨ filepathExt args.Load = ".yaml") := by
      rcases h with h | h | h <;> rw [h] <;> decide
    rw [if_neg hy, if_pos h]
    refine ⟨?_, rfl⟩
    show parseStarlark p req t args = _
    unfold parseStarlark
    rcases hs : p.starlarkParse req t args.Data with ⟨file, _ | err⟩ <;> simp
  · intro h
    have hy : ¬ (filepathExt args.Load = ".yml" ∨ filepathExt args.Load = ".yaml") := by
      rw [h]; decide
    have hs : ¬ (filepathExt args.Load = ".star" ∨ filepathExt args.Load = ".starlark" ∨
        filepathExt args.Load = ".script") := by
      rw [h]; decide
    rw [if_neg hy, if_neg hs, if_pos h]
    refine ⟨?_, rfl⟩
    show parseJsonnet p req t args = _
    unfold parseJsonnet
    rcases hs : p.jsonnetParse req t args.Data with ⟨file, _ | err⟩ <;> simp
  · intro h
    rw [hother h]
    exact ⟨rfl, rfl⟩
  · intro h
    have h' : filepathExt args.Load ∉
        [".yml", ".yaml", ".star", ".starlark", ".script", ".jsonnet"] := by
      rcases h with h | h | h <;> rw [h] <;> decide
    rw [hother h']
    exact ⟨rfl, rfl⟩

/-- C8: `Convert` never returns both a `Config` and an error: every call
yields exactly one of pass-through `(nil, nil)`, an error with a nil `Config`,
or a `Config` with a nil error, for all inputs and all collaborators; the
same holds for `parseYaml`, `parseStarlark` and `parseJsonnet`. -/
theorem never_config_and_error (p : Collaborators Ctx D T) (ctx : Ctx) (req : ConvertArgs)
    (t : Template) (args : TemplateArgs D) :
    ((Convert p ctx req).result.oneKind ∧
        ¬ ((Convert p ctx req).result.1 ≠ none ∧ (Convert p ctx req).result.2 ≠ none)) ∧
      ((parseYaml p t args).oneKind ∧
        ¬ ((parseYaml p t args).1 ≠ none ∧ (parseYaml p t args).2 ≠ none)) ∧
      ((parseStarlark p req t args).oneKind ∧
        ¬ ((parseStarlark p req t args).1 ≠ none ∧ (parseStarlark p req t args).2 ≠ none)) ∧
      ((parseJsonnet p req t args).oneKind ∧
        ¬ ((parseJsonnet p req t args).1 ≠ none ∧ (parseJsonnet p req t args).2 ≠ none)) := by
  have hc : (Convert p ctx req).result.oneKind := by
    by_cases hd : HasSuffix req.Repo.Config ".yml" = true ∧
        MatchString TemplateFileRE req.Config.Data = true
    · rw [Convert_of_detected p ctx req hd.1 hd.2]
      split_ifs with h₁ h₂ h₃ h₄ h₅ h₆
      · exact Or.inr (Or.inl ⟨rfl, by simp⟩)
      · exact Or.inr (Or.inl ⟨rfl, by simp⟩)
      · exact Or.inr (Or.inl ⟨rfl, h₃⟩)
      · exact parseYaml_oneKind _ _ _
      · exact parseStarlark_oneKind _ _ _ _
      · exact parseJsonnet_oneKind _ _ _ _
      · exact Or.inl ⟨rfl, rfl⟩
    · rw [Convert_of_not_detected p ctx req hd]
      exact Or.inl ⟨rfl, rfl⟩
  exact ⟨⟨hc, oneKind_not_both _ hc⟩,
    ⟨parseYaml_oneKind _ _ _, oneKind_not_both _ (parseYaml_oneKind _ _ _)⟩,
    ⟨parseStarlark_oneKind _ _ _ _, oneKind_not_both _ (parseStarlark_oneKind _ _ _ _)⟩,
    ⟨parseJsonnet_oneKind _ _ _ _, oneKind_not_both _ (parseJsonnet_oneKind _ _ _ _)⟩⟩

end


section
variable {Ctx D T : Type}

/-- C10: `Convert` goes on to decoding exactly for the envelopes whose
filename ends with `.yml` and whose content is `kind:`, one or more characters
among blank, tab, line feed, form feed and carriage return, `templat`, one or
more `e`, a line feed, and anything after; every other envelope gets
`(nil, nil)`. So `kind: templateee\n` and `kind:\n\ntemplate\n` pass, while
`kind: template` without a line feed, `kind: template\r\n`, `kind:template\n`
and every content that does not start with `kind:` get `(nil, nil)`. -/
theorem detection_gate_language (p : Collaborators Ctx D T) (ctx : Ctx) :
    (∀ req : ConvertArgs, Call.unmarshal req.Config.Data ∈ (Convert p ctx req).calls ↔
        AcceptedByGate req.Repo.Config req.Config.Data) ∧
      (∀ req : ConvertArgs, ¬ AcceptedByGate req.Repo.Config req.Config.Data →
        Convert p ctx req = ⟨(none, none), []⟩) ∧
      (∀ ns file content, ".yml".data <:+ file.data →
        content ∈ ["kind: templateee\n", "kind:\n\ntemplate\n"] →
        Call.unmarshal content ∈ (Convert p ctx (request ns file content)).calls) ∧
      (∀ ns file content,
        content ∈ ["kind: template", "kind: template\r\n", "kind:template\n"] →
        Convert p ctx (request ns file content) = ⟨(none, none), []⟩) ∧
      (∀ ns file content, ¬ "kind:".data <+: content.data →
        Convert p ctx (request ns file content) = ⟨(none, none), []⟩) := by
  have hgate : ∀ file content : String, AcceptedByGate file content ↔
      (HasSuffix file ".yml" = true ∧ MatchString TemplateFileRE content = true) := by
    intro file content
    unfold AcceptedByGate
    rw [HasSuffix_iff, MatchString_TemplateFileRE_iff]
    have hsp : ∀ ch : Char, ch ∈ [' ', '\t', '\n', '\x0c', '\r'] ↔ ch ∈ goSpace := by
      intro ch
      simp only [goSpace, List.mem_cons, List.mem_singleton, List.not_mem_nil, or_false]
      tauto
    simp only [hsp]
  refine ⟨?_, ?_, ?_, ?_, ?_⟩
  · intro req
    rw [unmarshal_mem_calls_iff, hgate]
  · intro req h
    exact Convert_of_not_detected p ctx req (fun hd => h ((hgate _ _).2 hd))
  · intro ns file content hfile hc
    have hm : MatchString TemplateFileRE content = true := by
      simp only [List.mem_cons, List.mem_singleton, List.not_mem_nil, or_false] at hc
      rcases hc with rfl | rfl <;> decide
    exact (unmarshal_mem_calls_iff p ctx (request ns file content)).2
      ⟨(HasSuffix_iff _ _).2 hfile, hm⟩
  · intro ns file content hc
    have hm : MatchString TemplateFileRE content = false := by
      simp only [List.mem_cons, List.mem_singleton, List.not_mem_nil, or_false] at hc
      rcases hc with rfl | rfl | rfl <;> decide
    apply Convert_of_not_detected
    rintro ⟨_, h⟩
    rw [show (request ns file content).Config.Data = content from rfl, hm] at h
    exact Bool.false_ne_true h
  · intro ns file content hc
    apply Convert_of_not_detected
    rintro ⟨_, h⟩
    obtain ⟨w, e, rest, _, _, _, hdata⟩ := (MatchString_TemplateFileRE_iff _).1 h
    apply hc
    refine ⟨w ++ "templat".data ++ List.replicate e 'e' ++ ['\n'] ++ rest, ?_⟩
    rw [show (request ns file content).Config.Data = content from rfl] at hdata
    rw [hdata]
    simp only [List.append_assoc]

end


/-- C2: the envelope `kind: templatee`, whose kind is not the word `template`,
is not passed through. Its filename ends with `.yml` and its content does not
start with `kind:`, whitespace, `template` and a line feed, yet every
`Convert` hands it to the decoder, and with the sample collaborators it is
rendered to a `Config`. -/
theorem templatee_envelope_is_converted :
    HasSuffix ".drone.yml" ".yml" = true ∧
      ¬ StartsWithKindTemplate "kind: templatee\nload: ci.jsonnet\n" ∧
      (∀ (Ctx D T : Type) (p : Collaborators Ctx D T) (ctx : Ctx),
        Call.unmarshal "kind: templatee\nload: ci.jsonnet\n" ∈
          (Convert p ctx
            (request "octocat" ".drone.yml" "kind: templatee\nload: ci.jsonnet\n")).calls) ∧
      Convert sample () (request "octocat" ".drone.yml" "kind: templatee\nload: ci.jsonnet\n") =
        ⟨(some { Data := "kind: pipeline\n" }, none),
          [Call.unmarshal "kind: templatee\nload: ci.jsonnet\n",
            Call.findName "ci.jsonnet" "octocat",
            Call.render Renderer.jsonnet { Name := "pipeline.yml", Data := "kind: pipeline\n" }]⟩ := by
  refine ⟨by decide, ?_, ?_, by decide⟩
  · rintro ⟨w, rest, hw, hws, h⟩
    cases w with
    | nil => exact hw rfl
    | cons a w =>
      cases w with
      | nil => simp at h
      | cons b w =>
        have hb : b ∈ goSpace := hws b (by simp)
        simp at h
        rw [← h.2.1] at hb
        revert hb
        decide
  · intro Ctx D T p ctx
    exact (unmarshal_mem_calls_iff p ctx _).2 ⟨by decide, by decide⟩

/-- The text that `fmt.Sprint` gives for a buffer is never the text that was
written to the buffer: it is longer. -/
theorem fmtSprintBuffer_ne (text : String) : fmtSprintBuffer text ≠ text := by
  have hbytes : ∀ l : List Nat, l.length ≤ (sprintBytes l).length + 1 := by
    intro l
    induction l with
    | nil => simp [sprintBytes]
    | cons b rest ih =>
      cases rest with
      | nil => simp [sprintBytes]
      | cons b' rest' =>
        simp only [sprintBytes, List.length_append, List.length_cons] at ih ⊢
        omega
  have henc : ∀ l : List Char, l.length ≤ (l.flatMap utf8EncodeChar).length := by
    intro l
    induction l with
    | nil => simp
    | cons c cs ih =>
      have hc : 1 ≤ (utf8EncodeChar c).length := by
        unfold utf8EncodeChar
        dsimp only
        split_ifs <;> simp
      simp only [List.flatMap_cons, List.length_append, List.length_cons]
      omega
  intro h
  have hlen := congrArg String.length h
  unfold fmtSprintBuffer at hlen
  simp only [String.length, List.length_append, List.length_cons, List.length_nil,
    utf8Bytes] at hlen
  have h₁ := hbytes (utf8Bytes text)
  have h₂ := henc text.data
  unfold utf8Bytes at h₁
  omega

section
variable {Ctx D T : Type}

/-- When the template compiles and executes without error, `parseYaml` returns
what `fmt.Sprint` prints for the buffer, which differs from the text that the
execution wrote. -/
theorem parseYaml_of_success (p : Collaborators Ctx D T) (t : Template)
    (args : TemplateArgs D) (tmpl : T) (text : String)
    (hparse : p.templateParse t.Name t.Data = (tmpl, none))
    (hexec : p.templateExecute tmpl args.Data = (text, none)) :
    parseYaml p t args = (some { Data := fmtSprintBuffer text }, none) ∧
      parseYaml p t args ≠ (some { Data := text }, none) := by
  have h : parseYaml p t args = (some { Data := fmtSprintBuffer text }, none) := by
    unfold parseYaml
    simp [hparse, hexec]
  refine ⟨h, ?_⟩
  rw [h]
  intro hne
  simp only [Prod.mk.injEq, Option.some.injEq, Config.mk.injEq, and_true] at hne
  exact fmtSprintBuffer_ne text hne

end

/-- C7: for the greeting sample the template compiles and executes without
error and writes `hello World`, but the `Config.Data` that `parseYaml`
returns is the printed form of the buffer struct, not the written text. -/
theorem parseYaml_greet_data_is_buffer_dump :
    sample.templateParse greetTemplate.Name greetTemplate.Data = (greetTemplate.Data, none) ∧
      sample.templateExecute greetTemplate.Data greetArgs.Data = ("hello World\n", none) ∧
      parseYaml sample greetTemplate greetArgs =
        (some { Data := "\x7b[104 101 108 108 111 32 87 111 114 108 100 10] 0 0\x7d" }, none) ∧
      parseYaml sample greetTemplate greetArgs ≠ (some { Data := "hello World\n" }, none) ∧
      (Convert sample () (request "octocat" ".drone.yml" greetEnvelope)).result =
        (some { Data := "\x7b[104 101 108 108 111 32 87 111 114 108 100 10] 0 0\x7d" }, none) := by
  refine ⟨rfl, by decide, by decide, by decide, by decide⟩


/-- C5, as stated, fails: two envelopes pass detection, decode and are found,
the two resolved templates declare the same name `pipeline.yml`, and still
`Convert` invokes `parseYaml` for the one loaded as `ci.yml` and
`parseJsonnet` for the one loaded as `ci.jsonnet`. -/
theorem renderer_not_chosen_by_template_name :
    HasSuffix ".drone.yml" ".yml" = true ∧
      MatchString TemplateFileRE "kind: template\nload: ci.yml\n" = true ∧
      MatchString TemplateFileRE "kind: template\nload: ci.jsonnet\n" = true ∧
      (sample.yamlUnmarshal "kind: template\nload: ci.yml\n").1.Load = "ci.yml" ∧
      (sample.yamlUnmarshal "kind: template\nload: ci.yml\n").2 = none ∧
      (sample.yamlUnmarshal "kind: template\nload: ci.jsonnet\n").1.Load = "ci.jsonnet" ∧
      (sample.yamlUnmarshal "kind: template\nload: ci.jsonnet\n").2 = none ∧
      sample.FindName () "ci.yml" "octocat" =
        ({ Name := "pipeline.yml", Data := "kind: pipeline\n" }, none) ∧
      sample.FindName () "ci.jsonnet" "octocat" =
        ({ Name := "pipeline.yml", Data := "kind: pipeline\n" }, none) ∧
      filepathExt (sample.FindName () "ci.yml" "octocat").1.Name =
        filepathExt (sample.FindName () "ci.jsonnet" "octocat").1.Name ∧
      renderersInvoked (Convert sample ()
        (request "octocat" ".drone.yml" "kind: template\nload: ci.yml\n")).calls =
          [Renderer.yaml] ∧
      renderersInvoked (Convert sample ()
        (request "octocat" ".drone.yml" "kind: template\nload: ci.jsonnet\n")).calls =
          [Renderer.jsonnet] := by
  refine ⟨by decide, by decide, by decide, by decide, by decide, by decide, by decide,
    by decide, by decide, by decide, by decide, by decide⟩

section
variable {Ctx D T : Type}

/-- The renderers invoked once detection, decoding and the lookup have
succeeded: a function of the extension of `Load`. -/
theorem renderersInvoked_of_found (p : Collaborators Ctx D T) (ctx : Ctx)
    (req : ConvertArgs) (args : TemplateArgs D) (t : Template)
    (hname : HasSuffix req.Repo.Config ".yml" = true)
    (hkind : MatchString TemplateFileRE req.Config.Data = true)
    (hdec : p.yamlUnmarshal req.Config.Data = (args, none))
    (hfind : p.FindName ctx args.Load req.Repo.Namespace = (t, none)) :
    renderersInvoked (Convert p ctx req).calls =
      if filepathExt args.Load = ".yml" ∨ filepathExt args.Load = ".yaml" then [Renderer.yaml]
      else if filepathExt args.Load = ".star" ∨ filepathExt args.Load = ".starlark" ∨
          filepathExt args.Load = ".script" then [Renderer.starlark]
      else if filepathExt args.Load = ".jsonnet" then [Renderer.jsonnet]
      else [] := by
  rw [Convert_of_detected p ctx req hname hkind]
  simp only [hdec, hfind, ne_eq, not_true_eq_false, if_false, reduceCtorEq]
  split_ifs <;> rfl

/-- C5, amended: when detection, decoding and the lookup succeed, `Convert`
chooses the renderer from the file extension of the envelope's `Load`: two
calls whose `Load` strings have the same extension invoke the same renderer,
whatever the names that the two resolved templates declare. -/
theorem renderer_chosen_by_load_extension (p₁ p₂ : Collaborators Ctx D T) (ctx₁ ctx₂ : Ctx)
    (req₁ req₂ : ConvertArgs) (args₁ args₂ : TemplateArgs D) (t₁ t₂ : Template)
    (hname₁ : HasSuffix req₁.Repo.Config ".yml" = true)
    (hkind₁ : MatchString TemplateFileRE req₁.Config.Data = true)
    (hdec₁ : p₁.yamlUnmarshal req₁.Config.Data = (args₁, none))
    (hfind₁ : p₁.FindName ctx₁ args₁.Load req₁.Repo.Namespace = (t₁, none))
    (hname₂ : HasSuffix req₂.Repo.Config ".yml" = true)
    (hkind₂ : MatchString TemplateFileRE req₂.Config.Data = true)
    (hdec₂ : p₂.yamlUnmarshal req₂.Config.Data = (args₂, none))
    (hfind₂ : p₂.FindName ctx₂ args₂.Load req₂.Repo.Namespace = (t₂, none))
    (hext : filepathExt args₁.Load = filepathExt args₂.Load) :
    renderersInvoked (Convert p₁ ctx₁ req₁).calls =
      renderersInvoked (Convert p₂ ctx₂ req₂).calls := by
  rw [renderersInvoked_of_found p₁ ctx₁ req₁ args₁ t₁ hname₁ hkind₁ hdec₁ hfind₁,
    renderersInvoked_of_found p₂ ctx₂ req₂ args₂ t₂ hname₂ hkind₂ hdec₂ hfind₂, hext]

theorem parseYaml_ne_notFound (p : Collaborators Ctx D T) (t : Template) (args : TemplateArgs D)
    (hparse : ∀ name text, (p.templateParse name text).2 ≠ some ErrTemplateNotFound)
    (hexec : ∀ tmpl data, (p.templateExecute tmpl data).2 ≠ some ErrTemplateNotFound) :
    parseYaml p t args ≠ (none, some ErrTemplateNotFound) := by
  unfold parseYaml
  dsimp only
  split_ifs with h₁ h₂
  · intro h
    exact hparse _ _ (congrArg Prod.snd h)
  · intro h
    exact hexec _ _ (congrArg Prod.snd h)
  · intro h
    simp at h

theorem parseStarlark_ne_notFound (p : Collaborators Ctx D T) (req : ConvertArgs) (t : Template)
    (args : TemplateArgs D)
    (hstar : ∀ r tm data, (p.starlarkParse r tm data).2 ≠ some ErrTemplateNotFound) :
    parseStarlark p req t args ≠ (none, some ErrTemplateNotFound) := by
  unfold parseStarlark
  dsimp only
  split_ifs with h₁
  · intro h
    exact hstar _ _ _ (congrArg Prod.snd h)
  · intro h
    simp at h

theorem parseJsonnet_ne_notFound (p : Collaborators Ctx D T) (req : ConvertArgs) (t : Template)
    (args : TemplateArgs D)
    (hjson : ∀ r tm data, (p.jsonnetParse r tm data).2 ≠ some ErrTemplateNotFound) :
    parseJsonnet p req t args ≠ (none, some ErrTemplateNotFound) := by
  unfold parseJsonnet
  dsimp only
  split_ifs with h₁
  · intro h
    exact hjson _ _ _ (congrArg Prod.snd h)
  · intro h
    simp at h

/-- C9: when detection and decoding succeed, `Convert` makes one lookup, with
the name `TemplateArgs.Load` and the namespace of the repository. So with a
store that is a table keyed by (name, namespace) and holds the named template
under namespace `nsA` but not under `nsB`, the envelope gets
`(nil, ErrTemplateNotFound)` from the lookup for a repository in `nsB`; for
a repository in `nsA` the lookup succeeds, so that result could only come
out of a renderer, and it does not come at all when the engines do not
themselves answer `ErrTemplateNotFound`. -/
theorem namespace_isolation (p : Collaborators Ctx D T) (ctx : Ctx) (file content : String)
    (args : TemplateArgs D)
    (hname : HasSuffix file ".yml" = true)
    (hkind : MatchString TemplateFileRE content = true)
    (hdec : p.yamlUnmarshal content = (args, none)) :
    (∀ ns, lookupsMade (Convert p ctx (request ns file content)).calls = [(args.Load, ns)]) ∧
      (∀ (rows : List ((String × String) × Template)) (nsA nsB : String) (t : Template),
        (∀ c name ns, p.FindName c name ns = mapStore rows c name ns) →
        rows.lookup (args.Load, nsA) = some t →
        rows.lookup (args.Load, nsB) = none →
        (Convert p ctx (request nsB file content)).result = (none, some ErrTemplateNotFound) ∧
        renderersInvoked (Convert p ctx (request nsB file content)).calls = [] ∧
        ((Convert p ctx (request nsA file content)).result = (none, some ErrTemplateNotFound) →
          renderersInvoked (Convert p ctx (request nsA file content)).calls ≠ []) ∧
        ((∀ name text, (p.templateParse name text).2 ≠ some ErrTemplateNotFound) →
          (∀ tmpl data, (p.templateExecute tmpl data).2 ≠ some ErrTemplateNotFound) →
          (∀ r tm data, (p.starlarkParse r tm data).2 ≠ some ErrTemplateNotFound) →
          (∀ r tm data, (p.jsonnetParse r tm data).2 ≠ some ErrTemplateNotFound) →
          (Convert p ctx (request nsA file content)).result ≠
            (none, some ErrTemplateNotFound))) := by
  have hunfold : ∀ ns, Convert p ctx (request ns file content) = _ :=
    fun ns => Convert_of_detected p ctx (request ns file content) hname hkind
  refine ⟨?_, ?_⟩
  · intro ns
    rw [hunfold ns]
    simp only [request, hdec, ne_eq, not_true_eq_false, if_false]
    split_ifs <;> rfl
  · intro rows nsA nsB t hstore hA hB
    refine ⟨?_, ?_, ?_, ?_⟩
    · rw [hunfold nsB]
      simp only [request, hdec, ne_eq, not_true_eq_false, if_false, hstore, mapStore, hB,
        if_true]
    · rw [hunfold nsB]
      simp only [request, hdec, ne_eq, not_true_eq_false, if_false, hstore, mapStore, hB,
        if_true]
      rfl
    · rw [hunfold nsA]
      simp only [request, hdec, ne_eq, not_true_eq_false, if_false, hstore, mapStore, hA,
        reduceCtorEq]
      split_ifs
      · intro _ h
        simp [renderersInvoked] at h
      · intro _ h
        simp [renderersInvoked] at h
      · intro _ h
        simp [renderersInvoked] at h
      · intro h
        simp at h
    · intro hparse hexec hstar hjson
      rw [hunfold nsA]
      simp only [request, hdec, ne_eq, not_true_eq_false, if_false, hstore, mapStore, hA,
        reduceCtorEq]
      split_ifs
      · exact parseYaml_ne_notFound p _ _ hparse hexec
      · exact parseStarlark_ne_notFound p _ _ _ hstar
      · exact parseJsonnet_ne_notFound p _ _ _ hjson
      · simp

end


/-! ## Instances on the sample collaborators -/

/-- C1 at a repository whose config file is `.drone.yaml`, with the greeting
envelope as content. -/
theorem convert_other_filename_passthrough_witness :
    ¬ ".yml".data <:+ ".drone.yaml".data ∧
      Convert sample () (request "octocat" ".drone.yaml" greetEnvelope) = ⟨(none, none), []⟩ :=
  ⟨by decide,
    convert_other_filename_passthrough sample ()
      (request "octocat" ".drone.yaml" greetEnvelope) (by decide)⟩

/-- C3 at an envelope with an unclosed flow sequence, which the decoder
refuses. -/
theorem decode_failure_is_syntax_error_witness :
    HasSuffix ".drone.yml" ".yml" = true ∧
      MatchString TemplateFileRE "kind: template\nload: [\n" = true ∧
      (sample.yamlUnmarshal "kind: template\nload: [\n").2 =
        some (GoError.other "yaml: did not find expected node content") ∧
      Convert sample () (request "octocat" ".drone.yml" "kind: template\nload: [\n") =
        ⟨(none, some ErrTemplateSyntaxErrors), [Call.unmarshal "kind: template\nload: [\n"]⟩ :=
  ⟨by decide, by decide, by decide,
    decode_failure_is_syntax_error sample ()
      (request "octocat" ".drone.yml" "kind: template\nload: [\n")
      (GoError.other "yaml: did not find expected node content")
      (by decide) (by decide) (by decide)⟩

/-- C4 at the greeting envelope for a repository in a namespace without the
template (the store answers `sql.ErrNoRows`), and with a store that is out of
reach (it answers an error of its own, which comes back unchanged). -/
theorem lookup_failure_classified_witness :
    (Convert sample () (request "nobody" ".drone.yml" greetEnvelope)).result =
        (none, some ErrTemplateNotFound) ∧
      (Convert { sample with
          FindName := fun _ _ _ =>
            ({ Name := "", Data := "" }, some (GoError.other "dial tcp: connection refused")) }
        () (request "octocat" ".drone.yml" greetEnvelope)).result =
        (none, some (GoError.other "dial tcp: connection refused")) :=
  ⟨(lookup_failure_classified sample () (request "nobody" ".drone.yml" greetEnvelope)
      greetArgs { Name := "", Data := "" } GoError.sqlErrNoRows
      (by decide) (by decide) rfl rfl).1 rfl,
    (lookup_failure_classified
      { sample with
          FindName := fun _ _ _ =>
            ({ Name := "", Data := "" }, some (GoError.other "dial tcp: connection refused")) }
      () (request "octocat" ".drone.yml" greetEnvelope)
      greetArgs { Name := "", Data := "" } (GoError.other "dial tcp: connection refused")
      (by decide) (by decide) rfl rfl).2.1 (by decide)⟩

/-- C6 at an envelope that loads `notes.txt`, a template that the store holds:
the extension `.txt` is not dispatched and the result is `(nil, nil)`; and at
the envelope that loads `ci.jsonnet`: the result is the engine's text. -/
theorem dispatch_total_on_extension_witness :
    ((Convert sample ()
        (request "octocat" ".drone.yml" "kind: template\nload: notes.txt\n")).result =
          (none, none) ∧
      renderersInvoked (Convert sample ()
        (request "octocat" ".drone.yml" "kind: template\nload: notes.txt\n")).calls = []) ∧
    ((Convert sample ()
        (request "octocat" ".drone.yml" "kind: template\nload: ci.jsonnet\n")).result =
          (some { Data := "kind: pipeline\n" }, none) ∧
      renderersInvoked (Convert sample ()
        (request "octocat" ".drone.yml" "kind: template\nload: ci.jsonnet\n")).calls =
          [Renderer.jsonnet]) :=
  ⟨(dispatch_total_on_extension sample ()
      (request "octocat" ".drone.yml" "kind: template\nload: notes.txt\n")
      { Load := "notes.txt", Data := [] } { Name := "notes.txt", Data := "remember the milk\n" }
      (by decide) (by decide) rfl rfl).2.2.2.2 (Or.inr (Or.inl (by decide))),
    (dispatch_total_on_extension sample ()
      (request "octocat" ".drone.yml" "kind: template\nload: ci.jsonnet\n")
      { Load := "ci.jsonnet", Data := [] } { Name := "pipeline.yml", Data := "kind: pipeline\n" }
      (by decide) (by decide) rfl rfl).2.2.1 (by decide)⟩

/-- C10 at the content `kind: templateee`, which reaches the decoder, and at
the content `kind: template` followed by a carriage return, which does not. -/
theorem detection_gate_language_witness :
    Call.unmarshal "kind: templateee\n" ∈
        (Convert sample () (request "octocat" ".drone.yml" "kind: templateee\n")).calls ∧
      Convert sample () (request "octocat" ".drone.yml" "kind: template\r\n") =
        ⟨(none, none), []⟩ :=
  ⟨(detection_gate_language sample ()).2.2.1 "octocat" ".drone.yml" "kind: templateee\n"
      (by decide) (by decide),
    (detection_gate_language sample ()).2.2.2.1 "octocat" ".drone.yml" "kind: template\r\n"
      (by decide)⟩

/-- C5, amended, at two envelopes that load `ci.yml`, one for a repository in
`octocat`, where the resolved template declares the name `pipeline.yml`, and
one for a repository in `acme`, where it declares the name `ci.star`. -/
theorem renderer_chosen_by_load_extension_witness :
    filepathExt (sample.FindName () "ci.yml" "octocat").1.Name ≠
        filepathExt (sample.FindName () "ci.yml" "acme").1.Name ∧
      renderersInvoked (Convert sample ()
          (request "octocat" ".drone.yml" "kind: template\nload: ci.yml\n")).calls =
        renderersInvoked (Convert sample ()
          (request "acme" ".drone.yml" "kind: template\nload: ci.yml\n")).calls :=
  ⟨by decide,
    renderer_chosen_by_load_extension sample sample () ()
      (request "octocat" ".drone.yml" "kind: template\nload: ci.yml\n")
      (request "acme" ".drone.yml" "kind: template\nload: ci.yml\n")
      { Load := "ci.yml", Data := [] } { Load := "ci.yml", Data := [] }
      { Name := "pipeline.yml", Data := "kind: pipeline\n" }
      { Name := "ci.star", Data := "kind: pipeline\n" }
      (by decide) (by decide) rfl rfl (by decide) (by decide) rfl rfl rfl⟩

/-- C9 at the greeting envelope with the sample store, which holds `greet.yml`
under `octocat` and not under `acme`. -/
theorem namespace_isolation_witness :
    lookupsMade (Convert sample () (request "acme" ".drone.yml" greetEnvelope)).calls =
        [("greet.yml", "acme")] ∧
      (Convert sample () (request "acme" ".drone.yml" greetEnvelope)).result =
        (none, some ErrTemplateNotFound) ∧
      (Convert sample () (request "octocat" ".drone.yml" greetEnvelope)).result ≠
        (none, some ErrTemplateNotFound) :=
  ⟨(namespace_isolation sample () ".drone.yml" greetEnvelope greetArgs
      (by decide) (by decide) rfl).1 "acme",
    ((namespace_isolation sample () ".drone.yml" greetEnvelope greetArgs
      (by decide) (by decide) rfl).2 sampleRows "octocat" "acme" greetTemplate
      (fun _ _ _ => rfl) (by decide) (by decide)).1,
    ((namespace_isolation sample () ".drone.yml" greetEnvelope greetArgs
      (by decide) (by decide) rfl).2 sampleRows "octocat" "acme" greetTemplate
      (fun _ _ _ => rfl) (by decide) (by decide)).2.2.2
      (fun _ _ => by simp [sample])
      (fun tmpl data => by
        simp only [sample, sampleExecute]
        split_ifs <;> simp)
      (fun _ _ _ => by simp [sample])
      (fun _ _ _ => by simp [sample])⟩


end Converter
